import Mathlib

/-!
Verification of the ascii-vibe-codex core against its specification.

The Python sources are shallowly embedded: Python `float` arithmetic is
modelled by exact rational arithmetic over `ℚ` (every concrete input used
in a theorem below has been checked to behave identically under IEEE-754
double semantics), Python `int` by `ℤ`/`ℕ`, strings by `List Char`.
Python `str.upper`/`str.lower` are modelled character-wise (`Char.toUpper`
/`Char.toLower`), which agrees with CPython on the ASCII and Latin-1
characters these code paths handle.
-/

namespace AsciiVibe

/-- `_round_half_up` from `src/src/ascii_vibe/renderer.py` line 9:
`int(math.floor(x + 0.5))`. -/
def roundHalfUp (x : ℚ) : ℤ := ⌊x + 1/2⌋

/-- Python's built-in `round` on a real value: round half to even
(banker's rounding), as used by the `round(...)` calls in `qc.py`,
`procgen.py` and the legacy `renderer.py`. -/
def pythonRound (x : ℚ) : ℤ :=
  if x - ⌊x⌋ < 1/2 then ⌊x⌋
  else if 1/2 < x - ⌊x⌋ then ⌊x⌋ + 1
  else if Even ⌊x⌋ then ⌊x⌋ else ⌊x⌋ + 1

/-- Python `int(q)` applied to a real value: truncation toward zero. -/
def pyTrunc (q : ℚ) : ℤ := if q < 0 then -⌊-q⌋ else ⌊q⌋

/-- `xorshift32` from `src/src/ascii_vibe/procgen.py` lines 4-10:
`x = seed & 0xFFFFFFFF; x ^= (x<<13)&M; x ^= x>>17; x ^= (x<<5)&M;
return x & M`.  Python `&` of a possibly negative int against `2^32 - 1`
is `Int.emod` by `2^32`. -/
def xorshift32 (seed : ℤ) : ℕ :=
  let m : ℕ := 4294967295
  let x0 : ℕ := (seed.emod 4294967296).toNat
  let x1 : ℕ := x0 ^^^ ((x0 <<< 13) &&& m)
  let x2 : ℕ := x1 ^^^ (x1 >>> 17)
  let x3 : ℕ := x2 ^^^ ((x2 <<< 5) &&& m)
  x3 &&& m

/-- The PRNG state after `k` steps of the walk
`state₀ = seed; stateᵢ = xorshift32(stateᵢ₋₁)`. -/
def stateIter (k : ℕ) (seed : ℤ) : ℤ :=
  (fun s : ℤ => (xorshift32 s : ℤ))^[k] seed

/-! ### Python string primitives, modelled over `List Char` -/

/-- The characters matched by Python's `str.strip()` / regex `\s`
(ASCII range). -/
def pySpace (c : Char) : Bool :=
  c = ' ' ∨ c = '\t' ∨ c = '\n' ∨ c = '\r' ∨ c = '\x0b' ∨ c = '\x0c'

/-- Python `str.strip()`. -/
def pyStripL (s : List Char) : List Char :=
  ((s.dropWhile pySpace).reverse.dropWhile pySpace).reverse

/-- Python `c * n` for a single character (empty for `n ≤ 0`). -/
def pyRepeat (c : Char) (n : ℤ) : List Char := List.replicate n.toNat c

/-- Python slicing `s[:n]`, including the negative-index convention. -/
def pyTake (n : ℤ) (s : List Char) : List Char :=
  if 0 ≤ n then s.take n.toNat else s.take (s.length - (-n).toNat)

/-- Python `s.ljust(n)` (space fill). -/
def pyLJust (s : List Char) (n : ℤ) : List Char :=
  s ++ List.replicate (n.toNat - s.length) ' '

/-- Python `s.rjust(n, fill)`. -/
def pyRJust (s : List Char) (n : ℤ) (fill : Char) : List Char :=
  List.replicate (n.toNat - s.length) fill ++ s

/-- Python `s.center(n)`: no truncation when `len(s) ≥ n`; otherwise the
margin splits as in CPython (`left = marg // 2 + (marg & n & 1)`). -/
def pyCenter (s : List Char) (n : ℤ) : List Char :=
  if n ≤ (s.length : ℤ) then s
  else
    let marg : ℕ := n.toNat - s.length
    let left : ℕ := marg / 2 + (marg &&& n.toNat &&& 1)
    List.replicate left ' ' ++ s ++ List.replicate (marg - left) ' '

/-- `p` is an initial segment of `s` (Python `s.startswith(p)`). -/
def isStartOf : List Char → List Char → Bool
  | [], _ => true
  | _ :: _, [] => false
  | a :: as, b :: bs => a = b && isStartOf as bs

/-- Python `needle in hay` substring containment. -/
def containsSub (needle : List Char) : List Char → Bool
  | [] => needle.isEmpty
  | c :: rest => isStartOf needle (c :: rest) || containsSub needle rest

/-- Number of occurrences of `c` in `s` (Python `s.count(c)` for a
single-character needle). -/
def countChar (c : Char) (s : List Char) : ℕ := s.countP (fun x => x = c)

/-- Decimal digit to character. -/
def digitChar (d : ℕ) : Char := Char.ofNat (48 + d)

/-- Decimal digits of a natural number, fuel-based so that it reduces in
the kernel; `natDigitsAux` with fuel at least `1` on `0` yields `"0"`. -/
def natDigitsAux : ℕ → ℕ → List Char
  | 0, _ => []
  | fuel + 1, n =>
    if n < 10 then [digitChar n]
    else natDigitsAux fuel (n / 10) ++ [digitChar (n % 10)]

/-- Python `str(n)` for a natural number. -/
def natDigits (n : ℕ) : List Char := natDigitsAux (n + 1) n

/-- Python `str(z)` for an int. -/
def intDigits (z : ℤ) : List Char :=
  (if z < 0 then ['-'] else []) ++ natDigits z.natAbs

/-- Maximum of a list of ints with a default for the empty list
(Python `max(values) if values else dflt`). -/
def listMaxZ (dflt : ℤ) : List ℤ → ℤ
  | [] => dflt
  | a :: as => as.foldl max a

/-- Maximum of a list of rationals with a default for the empty list. -/
def listMaxQ (dflt : ℚ) : List ℚ → ℚ
  | [] => dflt
  | a :: as => as.foldl max a

/-- Minimum of a list of rationals with a default for the empty list. -/
def listMinQ (dflt : ℚ) : List ℚ → ℚ
  | [] => dflt
  | a :: as => as.foldl min a

/-- Split a character list at newline characters; always returns one
piece more than the number of newlines. -/
def splitNl : List Char → List (List Char)
  | [] => [[]]
  | c :: cs =>
    if c = '\n' then [] :: splitNl cs
    else
      match splitNl cs with
      | [] => [[c]]
      | p :: ps => (c :: p) :: ps

/-- Python `str.splitlines()` restricted to `\n` terminators: no trailing
empty piece for a trailing newline, `[]` on the empty string. -/
def pySplitlines (s : List Char) : List (List Char) :=
  if s = [] then []
  else if s.getLast? = some '\n' then (splitNl s).dropLast
  else splitNl s

/-- Join lines with `\n` (Python `"\n".join(lines)`). -/
def joinNl : List (List Char) → List Char
  | [] => []
  | [l] => l
  | l :: ls => l ++ '\n' :: joinNl ls

end AsciiVibe

namespace AsciiVibe.Procgen

/-- `SPARK_UNI` from `procgen.py` line 21. -/
def SPARK_UNI : List Char := ['▁', '▂', '▃', '▄', '▅', '▆', '▇', '█']

/-- `SPARK_ASC` from `procgen.py` line 22. -/
def SPARK_ASC : List Char := ['.', '-', '=', '#']

/-- Palette index for one sparkline position, `procgen.py` lines 41-53:
banker's rounding of `normalized * (palette_size - 1)`, clamped, then the
optional seeded ±1 nudge. -/
def sparkIdx (paletteLen : ℕ) (lo hi : ℚ) (seed : Option ℤ) (i : ℕ) (v : ℚ) : ℤ :=
  let normalized : ℚ := (v - lo) / (hi - lo)
  let idx0 : ℤ := pythonRound (normalized * ((paletteLen : ℤ) - 1))
  let idx1 : ℤ := max 0 (min ((paletteLen : ℤ) - 1) idx0)
  match seed with
  | none => idx1
  | some s =>
    let vs : ℤ := s + (i : ℤ) * 1337
    if xorshift32 vs % 10 = 0 then
      let variation : ℤ := ((xorshift32 (vs * 2) % 3 : ℕ) : ℤ) - 1
      max 0 (min ((paletteLen : ℤ) - 1) (idx1 + variation))
    else idx1

/-- `sparkline` from `procgen.py` lines 24-57. -/
def sparkline (vals : List ℚ) (asciiOnly : Bool) (seed : Option ℤ) : List Char :=
  if vals = [] then []
  else
    let palette := if asciiOnly then SPARK_ASC else SPARK_UNI
    let lo := listMinQ 0 vals
    let hi := listMaxQ 0 vals
    if hi = lo then List.replicate vals.length (palette.getD 0 ' ')
    else
      vals.enum.map (fun p =>
        palette.getD (sparkIdx palette.length lo hi seed p.1 p.2).toNat ' ')

/-- The seeded inner loop of `braid`, `procgen.py` lines 71-81. -/
def braidAux (a b : Char) : ℕ → ℕ → ℤ → List Char
  | 0, _, _ => []
  | n + 1, i, st =>
    let st1 : ℕ := xorshift32 st
    let c : Char :=
      if st1 % 20 = 0 then (if i % 2 = 0 then b else a)
      else (if i % 2 = 0 then a else b)
    c :: braidAux a b n (i + 1) (st1 : ℤ)

/-- `braid` from `procgen.py` lines 59-81. -/
def braid (width : ℤ) (asciiOnly : Bool) (seed : Option ℤ) : List Char :=
  if width ≤ 0 then []
  else
    let a := if asciiOnly then '/' else '╱'
    let b := if asciiOnly then '\\' else '╲'
    match seed with
    | none => (List.range width.toNat).map (fun i => if i % 2 = 0 then a else b)
    | some s => braidAux a b width.toNat 0 s

/-- One row of `density_field`, `procgen.py` lines 99-104: the per-cell
decision `xorshift32(state) < threshold`, threading the state. -/
def buildRow (thr : ℤ) (fc : Char) : ℕ → ℤ → List Char × ℤ
  | 0, st => ([], st)
  | n + 1, st =>
    let st1 : ℕ := xorshift32 st
    let rest := buildRow thr fc n (st1 : ℤ)
    ((if (st1 : ℤ) < thr then fc else ' ') :: rest.1, rest.2)

/-- The row loop of `density_field`, `procgen.py` lines 98-104. -/
def buildRows (w : ℕ) (thr : ℤ) (fc : Char) : ℕ → ℤ → List (List Char)
  | 0, _ => []
  | n + 1, st =>
    let row := buildRow thr fc w st
    row.1 :: buildRows w thr fc n row.2

/-- `density_field` from `procgen.py` lines 83-106.  Note the threshold is
`int(density * 0xFFFFFFFF)` — truncation of `density * (2^32 - 1)`. -/
def densityField (width height : ℤ) (density : ℚ) (asciiOnly : Bool)
    (seed : ℤ) : List (List Char) :=
  if width ≤ 0 ∨ height ≤ 0 then []
  else
    let fc := if asciiOnly then '#' else '▓'
    let d := max 0 (min 1 density)
    let thr : ℤ := pyTrunc (d * 4294967295)
    buildRows width.toNat thr fc height.toNat seed

/-- The horizontal-edge cells of `procedural_border`, `procgen.py`
lines 126-132, threading the PRNG state. -/
def borderEdgeCells (roughOn : Bool) (hc rc : Char) : ℕ → ℤ → List Char × ℤ
  | 0, st => ([], st)
  | n + 1, st =>
    let st1 : ℕ := xorshift32 st
    let rest := borderEdgeCells roughOn hc rc n (st1 : ℤ)
    ((if roughOn ∧ st1 % 10 = 0 then rc else hc) :: rest.1, rest.2)

/-- `procedural_border` from `procgen.py` lines 108-140.  Only the
non-corner cells of the top and bottom edges consume PRNG state, in
row-major order. -/
def proceduralBorder (width height : ℤ) (style : List Char)
    (asciiOnly : Bool) (seed : ℤ) : List (List Char) :=
  if width < 3 ∨ height < 3 then []
  else
    let hc := if asciiOnly then '-' else '─'
    let vc := if asciiOnly then '|' else '│'
    let cc := if asciiOnly then '+' else '┌'
    let rc := if asciiOnly then '~' else '≈'
    let roughOn := style = ['r', 'o', 'u', 'g', 'h']
    let top := borderEdgeCells roughOn hc rc (width.toNat - 2) seed
    let bot := borderEdgeCells roughOn hc rc (width.toNat - 2) top.2
    let topRow := cc :: top.1 ++ [cc]
    let botRow := cc :: bot.1 ++ [cc]
    let midRow := vc :: List.replicate (width.toNat - 2) ' ' ++ [vc]
    topRow :: List.replicate (height.toNat - 2) midRow ++ [botRow]

end AsciiVibe.Procgen

namespace AsciiVibe.Pkg

/-- `_scale_bar_len` from `src/src/ascii_vibe/renderer.py` lines 12-15:
`max(0, min(width, _round_half_up(value/vmax*width)))`, or `0` when
`vmax ≤ 0`. -/
def scaleBarLen (value vmax : ℚ) (width : ℤ) : ℤ :=
  if vmax ≤ 0 then 0
  else max 0 (min width (roundHalfUp (value / vmax * (width : ℚ))))

/-- The tick column of `_build_horizontal_ruler`,
`src/src/ascii_vibe/renderer.py` line 22:
`min(width-1, max(0, _round_half_up(p * width)))`. -/
def tickIndex (p : ℚ) (width : ℤ) : ℤ :=
  min (width - 1) (max 0 (roundHalfUp (p * (width : ℚ))))

/-- The defensive clamp of `render_swiss_full_block_bar`,
`src/src/ascii_vibe/renderer.py` lines 184-187: trim or pad a row to
exactly `W` characters. -/
def clampRow (W : ℤ) (row : List Char) : List Char :=
  if (row.length : ℤ) ≠ W then
    if (row.length : ℤ) > W then pyTake W row
    else row ++ pyRepeat ' ' (W - (row.length : ℤ))
  else row

/-- One bar row of `render_swiss_full_block_bar`,
`src/src/ascii_vibe/renderer.py` lines 160-188. -/
def fullBlockBarRow (W LInner B vmax : ℤ) (lab : List Char) (val : ℤ) : List Char :=
  let raw := pyStripL lab
  let raw1 :=
    if isStartOf ['['] raw ∧ raw.getLast? = some ']' then
      pyStripL (raw.drop 1).dropLast
    else raw
  let labelInner := pyTake LInner (pyLJust (raw1.map Char.toUpper) LInner)
  let labelBlock := '[' :: labelInner ++ [']']
  let n : ℤ := pythonRound ((val : ℚ) / (vmax : ℚ) * (B : ℚ))
  let barSeg := pyRepeat '█' n ++ pyRepeat ' ' (B - n)
  let valTxt := pyRJust (intDigits val) 2 ' '
  clampRow W ('█' :: ' ' :: labelBlock ++ ' ' :: barSeg ++ ' ' :: valTxt ++ [' ', '█'])

/-- `render_swiss_full_block_bar` from `src/src/ascii_vibe/renderer.py`
lines 108-193, as the list of output lines; the `ValueError` raised when
the label field would be narrower than 4 becomes `Except.error`. -/
def renderSwissFullBlockBar (title : List Char) (labels : List (List Char))
    (values : List ℤ) (totalWidth barWidth : ℤ) :
    Except (List Char) (List (List Char)) :=
  let W := totalWidth
  let B := barWidth
  if labels = [] ∨ values = [] ∨ labels.length ≠ values.length then
    .ok [title]
  else
    let vmax0 := listMaxZ 0 values
    let vmax := if vmax0 ≤ 0 then 1 else vmax0
    let L := W - (B + 8)
    if L < 4 then .error ['t', 'o', 'o', ' ', 's', 'm', 'a', 'l', 'l']
    else
      let LInner := L - 2
      let titleRow := '█' :: pyCenter (title.map Char.toUpper) (W - 2) ++ ['█']
      let barRows := (labels.zip values).map
        (fun p => fullBlockBarRow W LInner B vmax p.1 p.2)
      .ok (pyRepeat '█' W :: titleRow :: barRows ++ [pyRepeat '█' W])

end AsciiVibe.Pkg

namespace AsciiVibe.Legacy

/-- `_scale_bar_len` from the legacy `src/renderer.py` lines 4-8:
`int(round((value / vmax) * width))` — despite its `# half-up` comment
this is Python's banker's rounding. -/
def scaleBarLen (value vmax : ℚ) (width : ℤ) : ℤ :=
  if vmax ≤ 0 then 0 else pythonRound (value / vmax * (width : ℚ))

/-- The unshrunk label field width of `_prepare_swiss_fields`,
`src/renderer.py` line 69: `max(len(f"[{l}]") for l in labels)` with
default `7` for no labels. -/
def initLabelField (labels : List (List Char)) : ℤ :=
  if labels = [] then 7
  else listMaxZ 0 (labels.map (fun l => (l.length : ℤ) + 2))

/-- The value field width of `_prepare_swiss_fields`,
`src/renderer.py` line 71. -/
def initValueField (values : List ℚ) : ℤ :=
  max 2 (if values = [] then 2
         else listMaxZ 0 (values.map (fun v => ((intDigits (pyTrunc v)).length : ℤ))))

/-- `_prepare_swiss_fields` from `src/renderer.py` lines 60-92, returning
`(label_field, bar_field, value_field, total_width)`.  When the bar field
comes out negative the label field is shrunk by
`min(label_field - 3, -bar_field)`; a still-infeasible bar field is
clamped to `1` (the function cannot fail). -/
def prepareSwissFields (labels : List (List Char)) (values : List ℚ)
    (totalWidth : ℤ) (_barWidth : Option ℤ) : ℤ × ℤ × ℤ × ℤ :=
  let labelField0 := initLabelField labels
  let valueField := initValueField values
  let barField0 := totalWidth - (labelField0 + valueField + 6)
  let lf := if barField0 < 0 then
      labelField0 - min (labelField0 - 3) (-barField0)
    else labelField0
  let barField1 := totalWidth - (lf + valueField + 6)
  let barField2 := if barField1 < 1 then 1 else barField1
  (lf, barField2, valueField, totalWidth)

/-- One data row of the legacy `render_swiss_full_block_bar`,
`src/renderer.py` lines 131-147, including the last-resort clip/pad. -/
def legacyBarRow (W L B V : ℤ) (vmax : ℚ) (label : List Char) (val : ℚ) : List Char :=
  let labelTxt := '[' :: label ++ [']']
  let labelPadded :=
    if (labelTxt.length : ℤ) < L then
      labelTxt ++ pyRepeat ' ' (L - (labelTxt.length : ℤ))
    else pyTake L labelTxt
  let n := scaleBarLen val vmax B
  let barSeg := pyRepeat '█' n ++ pyRepeat ' ' (B - n)
  let valueTxt := intDigits (pythonRound val)
  let row := '█' :: ' ' :: labelPadded ++ ' ' :: barSeg ++ ' ' ::
    pyRJust valueTxt V ' ' ++ [' ', '█']
  if (row.length : ℤ) ≠ W then
    if (row.length : ℤ) > W then pyTake W row
    else row ++ pyRepeat ' ' (W - (row.length : ℤ))
  else row

/-- The legacy `render_swiss_full_block_bar` from `src/renderer.py`
lines 94-151, as the list of output lines; the `assert` on mismatched
list lengths becomes `Except.error`. -/
def renderSwissFullBlockBar (title : List Char) (labels : List (List Char))
    (values : List ℚ) (totalWidth : ℤ) (barWidth : Option ℤ) :
    Except (List Char) (List (List Char)) :=
  if labels.length ≠ values.length then
    .error ['a', 's', 's', 'e', 'r', 't']
  else if labels = [] then .ok [title]
  else
    let f := prepareSwissFields labels values totalWidth barWidth
    let L := f.1
    let B := f.2.1
    let V := f.2.2.1
    let W := f.2.2.2
    let vmax := listMaxQ 0 values
    let inner0 := ' ' :: title ++ [' ']
    let inner :=
      if (inner0.length : ℤ) > W - 2 then ' ' :: pyTake (max 0 (W - 4)) title ++ [' ']
      else inner0
    let padLeft := (W - (inner.length : ℤ)).ediv 2
    let titleRow := pyRepeat '█' padLeft ++ inner ++
      pyRepeat '█' (W - (inner.length : ℤ) - padLeft)
    let dataRows := (labels.zip values).map (fun p => legacyBarRow W L B V vmax p.1 p.2)
    .ok (pyRepeat '█' W :: titleRow :: pyRepeat '█' W :: dataRows ++ [pyRepeat '█' W])

end AsciiVibe.Legacy

namespace AsciiVibe.Qc

/-- `validate_row_widths` from `src/src/ascii_vibe/qc.py` lines 4-9: all
non-empty (after strip) lines have the same length. -/
def validateRowWidths (lines : List (List Char)) : Bool :=
  match lines.filter (fun l => pyStripL l ≠ []) with
  | [] => true
  | h :: t => t.all (fun l => l.length = h.length)

/-- The expected fill length recomputed by the QC proportion check,
`src/src/ascii_vibe/qc.py` line 22: `round(values[i] / max_val * width)` —
Python's banker's rounding, not `_round_half_up`. -/
def qcExpectedFill (v maxVal : ℚ) (width : ℤ) : ℤ :=
  pythonRound (v / maxVal * (width : ℚ))

/-- The comparison loop of `validate_bar_proportions`, `qc.py`
lines 20-26; `none` models the `ZeroDivisionError` raised when
`max_val == 0` and a division is reached. -/
def vbpLoop (values : List ℚ) (maxVal : ℚ) (width : ℤ) :
    List (List Char) → ℕ → Option Bool
  | [], _ => some true
  | line :: rest, i =>
    if i < values.length then
      if maxVal = 0 then none
      else
        let expected := qcExpectedFill (values.getD i 0) maxVal width
        let actual : ℤ := (countChar '█' line : ℤ) + (countChar '=' line : ℤ)
        if expected ≠ actual then some false else vbpLoop values maxVal width rest (i + 1)
    else vbpLoop values maxVal width rest (i + 1)

/-- `validate_bar_proportions` from `src/src/ascii_vibe/qc.py`
lines 11-26; `data` is the dict's value list. -/
def validateBarProportions (lines : List (List Char)) (data : List ℚ)
    (width : ℤ) : Option Bool :=
  let barLines := lines.filter (fun l => isStartOf ['['] (pyStripL l))
  if barLines = [] ∨ data = [] then some true
  else
    let maxVal := listMaxQ 1 data
    vbpLoop data maxVal width barLines 0

/-- Result record of `qc_block`. -/
structure QCResult where
  widthOk : Bool
  proportionsOk : Bool
  bordersOk : Bool
  deriving DecidableEq, Repr

/-- The frame characters of the borders heuristic, `qc.py` line 49. -/
def frameChars : List Char :=
  ['┌', '┏', '╔', '+', '│', '┃', '║', '|', '┐', '┓', '╗', '└', '┗', '╚', '─', '━', '═', '-']

/-- The borders heuristic loop of `qc_block`, `qc.py` lines 50-58. -/
def bordersLoop : List (List Char) → Bool
  | [] => true
  | line :: rest =>
    if line ≠ [] ∧ line.any (fun c => frameChars.contains c) then
      if (line.head? = some '┌' ∨ line.head? = some '┏' ∨ line.head? = some '╔' ∨
            line.head? = some '+') ∧
          ¬(line.getLast? = some '┐' ∨ line.getLast? = some '┓' ∨
            line.getLast? = some '╗' ∨ line.getLast? = some '+') then false
      else if (line.head? = some '└' ∨ line.head? = some '┗' ∨ line.head? = some '╚' ∨
            line.head? = some '+') ∧
          ¬(line.getLast? = some '┘' ∨ line.getLast? = some '┛' ∨
            line.getLast? = some '╝' ∨ line.getLast? = some '+') then false
      else bordersLoop rest
    else bordersLoop rest

/-- `qc_block` from `src/src/ascii_vibe/qc.py` lines 31-60.  The
proportion check only runs when both `data` and `width` are supplied; an
exception inside it (`none`) turns into `proportions_ok = False`. -/
def qcBlock (text : List Char) (data : Option (List ℚ)) (width : Option ℤ) :
    QCResult :=
  let lines := pySplitlines text
  let widthOk := validateRowWidths lines
  let propOk :=
    match data, width with
    | some d, some w =>
      match validateBarProportions lines d w with
      | none => false
      | some b => b
    | _, _ => true
  { widthOk := widthOk, proportionsOk := propOk, bordersOk := bordersLoop lines }

end AsciiVibe.Qc

namespace AsciiVibe.Html

/-- The width clamp of `html_to_swiss_ascii`,
`src/src/ascii_vibe/transformers/html2ascii.py` line 171:
`width = max(40, min(width, SWISS_MAX_LINE))` with `SWISS_MAX_LINE = 80`. -/
def effectiveWidth (width : ℤ) : ℤ := max 40 (min width 80)

/-- The output stage of `html_to_swiss_ascii`, line 175:
`"\n".join(line[:width] for line in p.out)`.  The parser's accumulated
line list `p.out` is taken as an arbitrary input, since the clamp and the
truncation apply to whatever the parser produced. -/
def htmlPost (parserOut : List (List Char)) (width : ℤ) : List Char :=
  joinNl (parserOut.map (pyTake (effectiveWidth width)))

end AsciiVibe.Html

namespace AsciiVibe.Numbers

/-- `THIN_SPACE` from `src/src/ascii_vibe/numbers.py` line 11. -/
def THIN_SPACE : Char := ' '

/-- `CURRENCY_SYMBOLS` lookup with the `"$"` fallback for unknown codes,
`numbers.py` lines 6-9 and 16. -/
def symbolOf (cur : List Char) : List Char :=
  if cur = ['U', 'S', 'D'] then ['$']
  else if cur = ['E', 'U', 'R'] then ['€']
  else if cur = ['G', 'B', 'P'] then ['£']
  else if cur = ['J', 'P', 'Y'] then ['¥']
  else if cur = ['C', 'H', 'F'] then ['F', 'r']
  else if cur = ['C', 'A', 'D'] then ['C', '$']
  else if cur = ['A', 'U', 'D'] then ['A', '$']
  else ['$']

/-- The list of currency symbol strings, as iterated by
`CURRENCY_SYMBOLS.values()` in `numbers.py` line 105. -/
def currencySymbolValues : List (List Char) :=
  [['$'], ['€'], ['£'], ['¥'], ['F', 'r'], ['C', '$'], ['A', '$']]

/-- The separator-insertion loop of `format_currency`, `numbers.py`
lines 31-34, on the *reversed* digit list: a separator is emitted before
every digit whose running index is a positive multiple of 3. -/
def buildGroups (sep : Char) : List Char → ℕ → List Char
  | [], _ => []
  | d :: ds, i =>
    (if 0 < i ∧ i % 3 = 0 then [sep, d] else [d]) ++ buildGroups sep ds (i + 1)

/-- Thousands grouping as in `format_currency`, `numbers.py` lines 28-35:
reverse, interleave separators every three digits, reverse back.  (The
surrounding `len > 3` guard is kept at the call site, as in the code; on
short strings the loop inserts nothing anyway.) -/
def insertThousands (sep : Char) (s : List Char) : List Char :=
  (buildGroups sep s.reverse 0).reverse

/-- Grouping in threes from the right, stated directly: split the
reversed digits into chunks of three joined by the separator.  Used only
to compare against `insertThousands`. -/
def groupRev (sep : Char) : List Char → List Char
  | a :: b :: c :: d :: rest => a :: b :: c :: sep :: groupRev sep (d :: rest)
  | r => r

/-- Two-digit zero-padded decimal (the fractional part of an `.2f`
format). -/
def pad2 (n : ℕ) : List Char := if n < 10 then '0' :: natDigits n else natDigits n

/-- Zero-pad a numeral to `w` digits. -/
def padZeros (w : ℕ) (n : ℕ) : List Char :=
  List.replicate (w - (natDigits n).length) '0' ++ natDigits n

/-- `format_currency` from `src/src/ascii_vibe/numbers.py` lines 14-43.
The f-string `f"{abs_val:.2f}"` is modelled as banker's rounding of
`|value| * 100` to an integer number of cents. -/
def formatCurrency (value : ℚ) (cur : List Char) (asciiOnly : Bool) : List Char :=
  let symbol := symbolOf cur
  let cents : ℕ := (pythonRound (|value| * 100)).toNat
  let intPart := natDigits (cents / 100)
  let decPart := pad2 (cents % 100)
  let sep := if asciiOnly then ' ' else THIN_SPACE
  let intPart1 := if intPart.length > 3 then insertThousands sep intPart else intPart
  let body := intPart1 ++ '.' :: decPart
  if value < 0 then '(' :: symbol ++ body ++ [')'] else symbol ++ body

/-- Python `f"{q:.{dp}f}"` on a real value: banker's rounding at `dp`
decimal places.  (The `-0.0` sign edge of float formatting is not
modelled; no caller below depends on it.) -/
def pyFormatF (q : ℚ) (dp : ℕ) : List Char :=
  let n : ℤ := pythonRound (q * (10 : ℚ) ^ dp)
  (if n < 0 then ['-'] else []) ++ natDigits (n.natAbs / 10 ^ dp) ++
    (if dp = 0 then [] else '.' :: padZeros dp (n.natAbs % 10 ^ dp))

/-- `format_percent` from `numbers.py` lines 45-52. -/
def formatPercent (value : ℚ) (dp : ℕ) : List Char :=
  if value = 0 then ['0', '%']
  else (if 0 < value then ['+'] else []) ++ pyFormatF value dp ++ ['%']

/-- Parse a run of decimal digits with CPython's underscore rule (a `_`
must sit between two digits): returns the value, the digit count and the
rest of the input, or `none` if the input does not start with a digit. -/
def parseUDigitsAux : List Char → ℕ → ℕ → ℕ × ℕ × List Char
  | [], acc, k => (acc, k, [])
  | '_' :: d :: rest, acc, k =>
    if d.isDigit then parseUDigitsAux rest (acc * 10 + (d.toNat - 48)) (k + 1)
    else (acc, k, '_' :: d :: rest)
  | c :: rest, acc, k =>
    if c.isDigit then parseUDigitsAux rest (acc * 10 + (c.toNat - 48)) (k + 1)
    else (acc, k, c :: rest)

/-- See `parseUDigitsAux`. -/
def parseUDigits (s : List Char) : Option (ℕ × ℕ × List Char) :=
  match s with
  | c :: _ => if c.isDigit then some (parseUDigitsAux s 0 0) else none
  | [] => none

/-- Parse the optional exponent part of a Python float literal. -/
def parseExponent (q : ℚ) : List Char → Option ℚ
  | [] => some q
  | 'e' :: rest => parseExponentSigned q rest
  | 'E' :: rest => parseExponentSigned q rest
  | _ => none
where
  parseExponentSigned (q : ℚ) (rest : List Char) : Option ℚ :=
    let se : ℤ × List Char :=
      match rest with
      | '+' :: r => (1, r)
      | '-' :: r => (-1, r)
      | r => (1, r)
    match parseUDigits se.2 with
    | some (e, _, r) => if r = [] then some (q * (10 : ℚ) ^ (se.1 * (e : ℤ))) else none
    | none => none

/-- The finite-number grammar accepted by Python's `float(str)` (sign,
digits with optional fraction, optional exponent, underscores between
digits), returning the exact value; `inf`/`nan` forms are handled
separately by `isInfNanForm`. -/
def pyFloatValue (s : List Char) : Option ℚ :=
  let t := pyStripL s
  let st : ℚ × List Char :=
    match t with
    | '+' :: r => (1, r)
    | '-' :: r => (-1, r)
    | r => (1, r)
  let body : Option (ℚ × List Char) :=
    match st.2 with
    | '.' :: r =>
      match parseUDigits r with
      | some (f, k, rest) => some (((f : ℚ) / (10 : ℚ) ^ k), rest)
      | none => none
    | r =>
      match parseUDigits r with
      | some (ip, _, r1) =>
        match r1 with
        | '.' :: r2 =>
          match parseUDigits r2 with
          | some (f, k, r3) => some (((ip : ℚ) + (f : ℚ) / (10 : ℚ) ^ k), r3)
          | none => some ((ip : ℚ), r2)
        | _ => some ((ip : ℚ), r1)
      | none => none
  match body with
  | none => none
  | some (v, rest) =>
    match parseExponent v rest with
    | some q => some (st.1 * q)
    | none => none

/-- The `inf`/`infinity`/`nan` forms accepted by `float(str)`
(case-insensitive, optional sign). -/
def isInfNanForm (s : List Char) : Bool :=
  let t := pyStripL s
  let t1 := match t with
    | '+' :: r => r
    | '-' :: r => r
    | r => r
  let low := t1.map Char.toLower
  low = ['i', 'n', 'f'] ∨ low = ['i', 'n', 'f', 'i', 'n', 'i', 't', 'y'] ∨
    low = ['n', 'a', 'n']

/-- Python `float(s)` succeeds. -/
def pyFloatAccepts (s : List Char) : Bool :=
  (pyFloatValue s).isSome || isInfNanForm s

/-- `is_numeric_like` from `src/src/ascii_vibe/numbers.py` lines 54-69:
strip, drop one leading currency symbol plus following whitespace, drop
one trailing `%`, drop all parentheses/commas/whitespace, then try
`float(...)`. -/
def isNumericLike (text : List Char) : Bool :=
  if text = [] ∨ pyStripL text = [] then false
  else
    let c0 := pyStripL text
    let c1 :=
      match c0 with
      | ch :: rest =>
        if ch = '$' ∨ ch = '€' ∨ ch = '£' ∨ ch = '¥' then rest.dropWhile pySpace
        else c0
      | [] => c0
    let c2 := if c1.getLast? = some '%' then c1.dropLast else c1
    let c3 := c2.filter (fun c => ¬(c = '(' ∨ c = ')' ∨ c = ',' ∨ pySpace c))
    pyFloatAccepts c3

/-- Python `f"{z:,}"` for an int: thousands grouping with commas. -/
def pyCommaInt (z : ℤ) : List Char :=
  (if z < 0 then ['-'] else []) ++ insertThousands ',' (natDigits z.natAbs)

/-- Python `f"{q:,.1f}"`: one decimal place, comma-grouped integer part. -/
def pyCommaFloat1 (q : ℚ) : List Char :=
  let n : ℤ := pythonRound (q * 10)
  (if n < 0 then ['-'] else []) ++ insertThousands ',' (natDigits (n.natAbs / 10)) ++
    '.' :: natDigits (n.natAbs % 10)

/-- `normalize_number` from `src/src/ascii_vibe/numbers.py` lines 96-135.
Text failing `is_numeric_like` is returned unchanged; a `float(...)`
failure inside the `try` also returns the text unchanged. -/
def normalizeNumber (text : List Char) (cur : List Char) (asciiOnly : Bool) :
    List Char :=
  if ¬isNumericLike text then text
  else
    let clean := pyStripL text
    let isNeg := clean.contains '(' ∨ isStartOf ['-'] clean
    let isCur := currencySymbolValues.any (fun sym => containsSub sym clean)
    let isPct := clean.getLast? = some '%'
    let numericStr := (clean.filter (fun c => ¬(c = '(' ∨ c = ')'))).filter
      (fun c => c.isDigit ∨ c = '.' ∨ c = '-')
    match pyFloatValue numericStr with
    | none => text
    | some v0 =>
      let v := if isNeg then -|v0| else v0
      if isCur then formatCurrency v cur asciiOnly
      else if isPct then formatPercent v 1
      else
        let sep := if asciiOnly then ' ' else THIN_SPACE
        if 1000 ≤ |v| then
          if v = ((pyTrunc v : ℤ) : ℚ) then
            (pyCommaInt (pyTrunc v)).map (fun c => if c = ',' then sep else c)
          else (pyCommaFloat1 v).map (fun c => if c = ',' then sep else c)
        else if v = ((pyTrunc v : ℤ) : ℚ) then intDigits (pyTrunc v)
        else pyFormatF v 1

end AsciiVibe.Numbers

namespace AsciiVibe

theorem splitNl_ne_nil : ∀ l : List Char, splitNl l ≠ []
  | [] => by simp [splitNl]
  | c :: cs => by
    by_cases h : c = '\n'
    · simp [splitNl, h]
    · simp only [splitNl, if_neg h]
      cases hs : splitNl cs with
      | nil => simp
      | cons p ps => simp

theorem mem_splitNl_length : ∀ (l : List Char) (p : List Char),
    p ∈ splitNl l → p.length ≤ l.length := by
  intro l
  induction l with
  | nil =>
    intro p hp
    simp [splitNl] at hp
    simp [hp]
  | cons c cs ih =>
    intro p hp
    by_cases h : c = '\n'
    · simp only [splitNl, if_pos h, List.mem_cons] at hp
      rcases hp with hp | hp
      · simp [hp]
      · exact le_trans (ih p hp) (by simp)
    · simp only [splitNl, if_neg h] at hp
      cases hs : splitNl cs with
      | nil => exact absurd hs (splitNl_ne_nil cs)
      | cons q qs =>
        rw [hs] at hp
        simp only [List.mem_cons] at hp
        rcases hp with hp | hp
        · have hq : q.length ≤ cs.length := ih q (by rw [hs]; exact List.mem_cons_self q qs)
          simp [hp, List.length_cons]
          omega
        · exact le_trans (ih p (by rw [hs]; exact List.mem_cons_of_mem q hp)) (by simp)

theorem splitNl_append_nl (a b : List Char) :
    splitNl (a ++ '\n' :: b) = splitNl a ++ splitNl b := by
  induction a with
  | nil => simp [splitNl]
  | cons c cs ih =>
    by_cases h : c = '\n'
    · have e1 : splitNl ((c :: cs) ++ '\n' :: b) = [] :: splitNl (cs ++ '\n' :: b) := by
        simp [splitNl, h]
      have e2 : splitNl (c :: cs) = [] :: splitNl cs := by simp [splitNl, h]
      rw [e1, e2, ih]
      rfl
    · cases hs : splitNl cs with
      | nil => exact absurd hs (splitNl_ne_nil cs)
      | cons q qs =>
        have e0 : splitNl (cs ++ '\n' :: b) = q :: (qs ++ splitNl b) := by
          rw [ih, hs]
          rfl
        have e1 : splitNl ((c :: cs) ++ '\n' :: b) = (c :: q) :: (qs ++ splitNl b) := by
          simp [splitNl, h, e0]
        have e2 : splitNl (c :: cs) = (c :: q) :: qs := by simp [splitNl, h, hs]
        rw [e1, e2]
        rfl

theorem mem_splitNl_joinNl : ∀ (ls : List (List Char)) (p : List Char),
    p ∈ splitNl (joinNl ls) → p = [] ∨ ∃ l ∈ ls, p ∈ splitNl l := by
  intro ls
  induction ls with
  | nil =>
    intro p hp
    simp [joinNl, splitNl] at hp
    exact Or.inl hp
  | cons l ls ih =>
    intro p hp
    cases ls with
    | nil =>
      simp only [joinNl] at hp
      exact Or.inr ⟨l, by simp, hp⟩
    | cons l2 ls2 =>
      simp only [joinNl] at hp
      rw [splitNl_append_nl] at hp
      rcases List.mem_append.mp hp with hp | hp
      · exact Or.inr ⟨l, by simp, hp⟩
      · rcases ih p hp with hp | ⟨m, hm, hpm⟩
        · exact Or.inl hp
        · exact Or.inr ⟨m, List.mem_cons_of_mem _ hm, hpm⟩

theorem pyTake_length_le (n : ℤ) (hn : 0 ≤ n) (s : List Char) :
    (pyTake n s).length ≤ n.toNat := by
  simp [pyTake, if_pos hn]

end AsciiVibe

namespace AsciiVibe

/-- C7: each of the four procedural generators (`sparkline`, `braid`,
`density_field`, `procedural_border`) is a pure function of its argument
list — the embedding reads no clock, randomness source, or external
state, mirroring the Python code — so two calls with identical
`(seed, inputs)` return identical output; in particular
`sparkline([1,3,2,5,4], seed=42)` twice yields identical strings. -/
theorem c7_generators_deterministic :
    (∀ (vals : List ℚ) (ao : Bool) (seed : Option ℤ),
      Procgen.sparkline vals ao seed = Procgen.sparkline vals ao seed) ∧
    (∀ (w : ℤ) (ao : Bool) (seed : Option ℤ),
      Procgen.braid w ao seed = Procgen.braid w ao seed) ∧
    (∀ (w h : ℤ) (d : ℚ) (ao : Bool) (seed : ℤ),
      Procgen.densityField w h d ao seed = Procgen.densityField w h d ao seed) ∧
    (∀ (w h : ℤ) (st : List Char) (ao : Bool) (seed : ℤ),
      Procgen.proceduralBorder w h st ao seed =
        Procgen.proceduralBorder w h st ao seed) ∧
    Procgen.sparkline [1, 3, 2, 5, 4] false (some 42) =
      Procgen.sparkline [1, 3, 2, 5, 4] false (some 42) :=
  ⟨fun _ _ _ => rfl, fun _ _ _ => rfl, fun _ _ _ _ _ => rfl,
    fun _ _ _ _ _ => rfl, rfl⟩

/-- C9: `html_to_swiss_ascii` clamps its width to `max(40, min(width, 80))`
and truncates every output line to that effective width, so every line of
the returned text has length at most the effective width; a width outside
40–80 is silently overridden.  The HTML parser's accumulated line list is
universally quantified, since the clamp and truncation apply to whatever
it produced. -/
theorem c9_html_width_clamp (width : ℤ) (parserOut : List (List Char)) :
    40 ≤ Html.effectiveWidth width ∧ Html.effectiveWidth width ≤ 80 ∧
    Html.effectiveWidth width = max 40 (min width 80) ∧
    ∀ p ∈ splitNl (Html.htmlPost parserOut width),
      p.length ≤ (Html.effectiveWidth width).toNat := by
  refine ⟨le_max_left _ _, max_le (by norm_num) (min_le_right _ _), rfl, ?_⟩
  intro p hp
  rcases mem_splitNl_joinNl _ p hp with hp | ⟨l, hl, hpl⟩
  · simp [hp]
  · rcases List.mem_map.mp hl with ⟨l0, _, rfl⟩
    exact le_trans (mem_splitNl_length _ p hpl)
      (pyTake_length_le _ (le_trans (by norm_num) (le_max_left 40 (min width 80))) l0)

/-- Witness for C9 at `width = 100` (clamped to 80) on a one-line parser
output. -/
theorem c9_html_width_clamp_witness :
    ['h', 'e', 'l', 'l', 'o'] ∈
      splitNl (Html.htmlPost [['h', 'e', 'l', 'l', 'o']] 100) ∧
    ['h', 'e', 'l', 'l', 'o'].length ≤ (Html.effectiveWidth 100).toNat :=
  ⟨by decide, (c9_html_width_clamp 100 [['h', 'e', 'l', 'l', 'o']]).2.2.2
    ['h', 'e', 'l', 'l', 'o'] (by decide)⟩

/-- C10: `qc_block` reports `proportions_ok = true` whenever `data` or
`width` is omitted; the proportion check also passes vacuously on an
empty data mapping or when no line starts (after strip) with `[`. -/
theorem c10_qc_vacuous_proportions :
    (∀ (text : List Char) (w : Option ℤ),
      (Qc.qcBlock text none w).proportionsOk = true) ∧
    (∀ (text : List Char) (d : Option (List ℚ)),
      (Qc.qcBlock text d none).proportionsOk = true) ∧
    (∀ (text : List Char) (w : ℤ),
      (Qc.qcBlock text (some []) (some w)).proportionsOk = true) ∧
    (∀ (text : List Char) (d : List ℚ) (w : ℤ),
      (∀ l ∈ pySplitlines text, ¬isStartOf ['['] (pyStripL l)) →
        (Qc.qcBlock text (some d) (some w)).proportionsOk = true) := by
  refine ⟨fun text w => rfl, fun text d => ?_, fun text w => ?_, fun text d w hbar => ?_⟩
  · cases d <;> rfl
  · simp [Qc.qcBlock, Qc.validateBarProportions]
  · have hfil : (pySplitlines text).filter
        (fun l => isStartOf ['['] (pyStripL l)) = [] := by
      rw [List.filter_eq_nil_iff]
      intro a ha
      simpa using hbar a ha
    simp [Qc.qcBlock, Qc.validateBarProportions, hfil]

/-- Witness for C10 on a concrete two-line text with no bracketed label. -/
theorem c10_qc_vacuous_proportions_witness :
    (∀ l ∈ pySplitlines ['h', 'i', '\n', 'y', 'o'],
      ¬isStartOf ['['] (pyStripL l)) ∧
    (Qc.qcBlock ['h', 'i', '\n', 'y', 'o'] (some [3, 1]) (some 10)).proportionsOk
      = true :=
  ⟨by decide, c10_qc_vacuous_proportions.2.2.2 ['h', 'i', '\n', 'y', 'o'] [3, 1] 10
    (by decide)⟩

/-- C8: any text on which the numeric classifier fails is returned
unchanged by `normalize_number`; failure to normalize is not an error
(the embedding is total, and the guarded branch is never entered). -/
theorem c8_normalize_passthrough (t c : List Char) (ao : Bool)
    (h : Numbers.isNumericLike t = false) :
    Numbers.normalizeNumber t c ao = t := by
  simp [Numbers.normalizeNumber, h]

/-- Witness for C8 on the non-numeric text `"abc"`. -/
theorem c8_normalize_passthrough_witness :
    Numbers.isNumericLike ['a', 'b', 'c'] = false ∧
    Numbers.normalizeNumber ['a', 'b', 'c'] ['U', 'S', 'D'] false =
      ['a', 'b', 'c'] :=
  ⟨by decide, c8_normalize_passthrough ['a', 'b', 'c'] ['U', 'S', 'D'] false
    (by decide)⟩

end AsciiVibe

namespace AsciiVibe

/-- C1 (failing input): at `v = 1`, `vmax = 2`, bar field width `B = 1`
the renderer fills `round_half_up(0.5) = 1` glyph but the QC validator
recomputes the expected fill with Python's banker's `round(0.5) = 0`, so
the validator rejects a row the renderer itself produced.  The spec
requires both sides to use the identical `floor(x + 0.5)` rule. -/
theorem c1_qc_validator_rounding_mismatch :
    Pkg.scaleBarLen 1 2 1 = 1 ∧
    Qc.qcExpectedFill 1 2 1 = 0 ∧
    Qc.validateBarProportions
      [['[', 'A', ']', ' ', '█'], ['[', 'B', ']', ' ', '█']] [1, 2] 1 =
      some false := by
  refine ⟨?_, ?_, ?_⟩
  · norm_num [Pkg.scaleBarLen, roundHalfUp, min_def, max_def]
  · norm_num [Qc.qcExpectedFill, pythonRound]
  · have e1 : Qc.qcExpectedFill 1 2 1 = 0 := by
      norm_num [Qc.qcExpectedFill, pythonRound]
    have e2 : Qc.qcExpectedFill 2 2 1 = 1 := by
      norm_num [Qc.qcExpectedFill, pythonRound]
    simp [Qc.validateBarProportions, Qc.vbpLoop, listMaxQ, max_def, e1, e2]
    decide

/-- C4 (counterexample): the sparkline palette-index path does not use
the half-up rule.  For values `[0, 5, 14]` the middle normalized index is
`5/14 * 7 = 2.5` (this product is exactly `2.5` in IEEE doubles as well);
`round_half_up` would give index `3` (glyph `▄`), but the code's banker's
`round` gives `2`, so the rendered sparkline is `▁▃█`, not `▁▄█`. -/
theorem c4_counterexample_sparkline_banker_tie :
    Procgen.sparkline [0, 5, 14] false none = ['▁', '▃', '█'] ∧
    roundHalfUp ((5 - 0) / (14 - 0) * ((8 : ℚ) - 1)) = 3 ∧
    Procgen.SPARK_UNI.getD (3 : ℕ) ' ' = '▄' ∧
    ['▁', '▃', '█'] ≠ ['▁', '▄', '█'] := by
  refine ⟨?_, by norm_num [roundHalfUp], by decide, by decide⟩
  have e0 : Procgen.sparkIdx 8 0 14 none 0 0 = 0 := by
    norm_num [Procgen.sparkIdx, pythonRound, min_def, max_def]
  have e1 : Procgen.sparkIdx 8 0 14 none 1 5 = 2 := by
    norm_num [Procgen.sparkIdx, pythonRound, min_def, max_def]
  have e2 : Procgen.sparkIdx 8 0 14 none 2 14 = 7 := by
    norm_num [Procgen.sparkIdx, pythonRound, min_def, max_def]
  have hmax : listMaxQ 0 [(0:ℚ), 5, 14] = 14 := by norm_num [listMaxQ, max_def]
  have hmin : listMinQ 0 [(0:ℚ), 5, 14] = 0 := by norm_num [listMinQ, min_def]
  have hlen : Procgen.SPARK_UNI.length = 8 := by decide
  rw [Procgen.sparkline]
  norm_num [hmax, hmin, hlen, List.enum, e0, e1, e2]
  simp [Procgen.SPARK_UNI]

/-- C4 (amended): the package renderer's proportional-fill and ruler
tick/tick-label paths round via `_round_half_up = floor(x + 0.5)` — with
`round_half_up(2.5) = 3` and `round_half_up(-2.5) = -2` — but the
sparkline palette index uses Python's banker's `round`, which yields `2`
at the tie `2.5`, so that path does not follow the half-up rule. -/
theorem c4_rounding_rules_by_path :
    Pkg.scaleBarLen 1 2 1 = 1 ∧
    Pkg.tickIndex (1/4) 10 = 3 ∧
    roundHalfUp (5/2) = 3 ∧
    roundHalfUp (-5/2) = -2 ∧
    pythonRound ((5 - 0) / (14 - 0) * ((8 : ℚ) - 1)) = 2 ∧
    Procgen.sparkline [0, 5, 14] false none ≠ ['▁', '▄', '█'] := by
  refine ⟨?_, ?_, by norm_num [roundHalfUp], by norm_num [roundHalfUp],
    by norm_num [pythonRound], ?_⟩
  · norm_num [Pkg.scaleBarLen, roundHalfUp, min_def, max_def]
  · norm_num [Pkg.tickIndex, roundHalfUp, min_def, max_def]
  · have e0 : Procgen.sparkIdx 8 0 14 none 0 0 = 0 := by
      norm_num [Procgen.sparkIdx, pythonRound, min_def, max_def]
    have e1 : Procgen.sparkIdx 8 0 14 none 1 5 = 2 := by
      norm_num [Procgen.sparkIdx, pythonRound, min_def, max_def]
    have e2 : Procgen.sparkIdx 8 0 14 none 2 14 = 7 := by
      norm_num [Procgen.sparkIdx, pythonRound, min_def, max_def]
    have hmax : listMaxQ 0 [(0:ℚ), 5, 14] = 14 := by norm_num [listMaxQ, max_def]
    have hmin : listMinQ 0 [(0:ℚ), 5, 14] = 0 := by norm_num [listMinQ, min_def]
    have hlen : Procgen.SPARK_UNI.length = 8 := by decide
    rw [Procgen.sparkline]
    norm_num [hmax, hmin, hlen, List.enum, e0, e1, e2]
    simp [Procgen.SPARK_UNI]

end AsciiVibe

namespace AsciiVibe

/-- C3 (counterexample): at `total_width = 10`, `labels = ["AB"]`,
`values = [5]` the layout is infeasible even after shrinking the label
field to 3 (`bar_field` would be `-1`), yet the legacy renderer does not
fail: it clamps the bar field to 1 and silently clips the data row from
12 characters to 10 — the row loses its right cap and part of its value
field, exactly the silent truncation the claim rules out. -/
theorem c3_counterexample_clamp_no_error :
    Legacy.renderSwissFullBlockBar ['T'] [['A', 'B']] [5] 10 (some 35) =
      Except.ok
        [['█', '█', '█', '█', '█', '█', '█', '█', '█', '█'],
         ['█', '█', '█', ' ', 'T', ' ', '█', '█', '█', '█'],
         ['█', '█', '█', '█', '█', '█', '█', '█', '█', '█'],
         ['█', ' ', '[', 'A', 'B', ' ', '█', ' ', ' ', '5'],
         ['█', '█', '█', '█', '█', '█', '█', '█', '█', '█']] ∧
    ['█', ' ', '[', 'A', 'B', ' ', '█', ' ', ' ', '5'].getLast? ≠ some '█' := by
  refine ⟨?_, by decide⟩
  have hprep : Legacy.prepareSwissFields [['A', 'B']] [5] 10 (some 35) =
      (3, 1, 2, 10) := by
    have hv : pyTrunc (5:ℚ) = 5 := by norm_num [pyTrunc]
    simp [Legacy.prepareSwissFields, Legacy.initLabelField, Legacy.initValueField,
      listMaxZ, hv, intDigits, natDigits, natDigitsAux, min_def, max_def]
  have hscale : Legacy.scaleBarLen 5 (listMaxQ 0 [(5:ℚ)]) 1 = 1 := by
    norm_num [Legacy.scaleBarLen, pythonRound, listMaxQ]
  have hpr5 : pythonRound (5:ℚ) = 5 := by norm_num [pythonRound]
  rw [Legacy.renderSwissFullBlockBar]
  simp only [hprep]
  simp [Legacy.legacyBarRow, hscale, hpr5, intDigits, natDigits, natDigitsAux,
    pyRepeat, pyTake, pyRJust, pyLJust, max_def]
  decide

/-- C3 (amended): the legacy field allocator never fails — it shrinks the
label field (never below `min 3` of its original width) and then clamps
the bar field to at least 1, handling still-infeasible layouts by row
clipping rather than an error; the package full-block renderer is the one
that fails, raising `ValueError` exactly when
`total_width - (bar_width + 8) < 4` (and it does not shrink the label
field first). -/
theorem c3_field_allocation_clamps_instead_of_failing :
    (∀ (labels : List (List Char)) (values : List ℚ) (tw : ℤ) (bw : Option ℤ),
      1 ≤ (Legacy.prepareSwissFields labels values tw bw).2.1 ∧
      min 3 (Legacy.initLabelField labels) ≤
        (Legacy.prepareSwissFields labels values tw bw).1) ∧
    (∀ (t : List Char) (ls : List (List Char)) (vs : List ℤ) (W B : ℤ),
      (∃ rows, Pkg.renderSwissFullBlockBar t ls vs W B = .ok rows) ↔
        (ls = [] ∨ vs = [] ∨ ls.length ≠ vs.length ∨ 4 ≤ W - (B + 8))) := by
  constructor
  · intro labels values tw bw
    simp only [Legacy.prepareSwissFields]
    constructor
    · dsimp only
      split_ifs <;> omega
    · dsimp only
      rcases le_total 3 (Legacy.initLabelField labels) with h3 | h3 <;>
        rcases le_total (Legacy.initLabelField labels - 3)
          (-(tw - (Legacy.initLabelField labels +
            Legacy.initValueField values + 6))) with hm | hm <;>
        split_ifs <;>
        simp only [min_def] <;> split_ifs <;> omega
  · intro t ls vs W B
    simp only [Pkg.renderSwissFullBlockBar]
    by_cases hg : ls = [] ∨ vs = [] ∨ ls.length ≠ vs.length
    · rw [if_pos hg]
      constructor
      · intro _
        rcases hg with h | h | h
        · exact Or.inl h
        · exact Or.inr (Or.inl h)
        · exact Or.inr (Or.inr (Or.inl h))
      · intro _
        exact ⟨[t], rfl⟩
    · rw [if_neg hg]
      by_cases hL : W - (B + 8) < 4
      · rw [if_pos hL]
        constructor
        · rintro ⟨rows, h⟩
          exact absurd h (by simp)
        · intro h
          push_neg at hg
          rcases h with h | h | h | h
          · exact absurd h hg.1
          · exact absurd h hg.2.1
          · exact absurd hg.2.2 h
          · omega
      · rw [if_neg hL]
        constructor
        · intro _
          exact Or.inr (Or.inr (Or.inr (by omega)))
        · intro _
          exact ⟨_, rfl⟩

end AsciiVibe

namespace AsciiVibe

theorem stateIter_comp (a b : ℕ) (st : ℤ) :
    stateIter a (stateIter b st) = stateIter (a + b) st :=
  (Function.iterate_add_apply _ a b st).symm

theorem buildRow_state (thr : ℤ) (fc : Char) :
    ∀ (n : ℕ) (st : ℤ), (Procgen.buildRow thr fc n st).2 = stateIter n st := by
  intro n
  induction n with
  | zero => intro st; rfl
  | succ n ih =>
    intro st
    show (Procgen.buildRow thr fc n ((xorshift32 st : ℤ))).2 = _
    rw [ih]
    rfl

theorem buildRow_getD (thr : ℤ) (fc : Char) :
    ∀ (n x : ℕ) (st : ℤ), x < n →
      ((Procgen.buildRow thr fc n st).1).getD x '?' =
        if stateIter (x + 1) st < thr then fc else ' ' := by
  intro n
  induction n with
  | zero => intro x st hx; omega
  | succ n ih =>
    intro x st hx
    cases x with
    | zero => rfl
    | succ x =>
      show ((Procgen.buildRow thr fc n ((xorshift32 st : ℤ))).1).getD x '?' = _
      rw [ih x _ (by omega)]
      rfl

theorem buildRows_getD (w : ℕ) (thr : ℤ) (fc : Char) :
    ∀ (m y : ℕ) (st : ℤ), y < m →
      (Procgen.buildRows w thr fc m st).getD y [] =
        (Procgen.buildRow thr fc w (stateIter (y * w) st)).1 := by
  intro m
  induction m with
  | zero => intro y st hy; omega
  | succ m ih =>
    intro y st hy
    cases y with
    | zero =>
      rw [Nat.zero_mul]
      rfl
    | succ y =>
      show (Procgen.buildRows w thr fc m (Procgen.buildRow thr fc w st).2).getD y [] = _
      rw [buildRow_state, ih y _ (by omega), stateIter_comp]
      have : y * w + w = (y + 1) * w := by ring
      rw [this]

/-- C5 (amended): the cell at row `y`, column `x` of `density_field` is
filled iff the xorshift32 state reached after `y*width + x + 1` steps
from the seed is below `int(density * 0xFFFFFFFF)` — the truncation of
`clamped_density * (2^32 - 1)`, not `density * 2^32` — with the state
threaded over the grid in row-major order. -/
theorem c5_density_cell_threshold (w h : ℤ) (d : ℚ) (ao : Bool) (seed : ℤ)
    (y x : ℕ) (hy : (y : ℤ) < h) (hx : (x : ℤ) < w) :
    ((Procgen.densityField w h d ao seed).getD y []).getD x '?' =
      if stateIter (y * w.toNat + x + 1) seed <
          pyTrunc (max 0 (min 1 d) * 4294967295)
      then (if ao then '#' else '▓') else ' ' := by
  have hguard : ¬(w ≤ 0 ∨ h ≤ 0) := by
    push_neg
    omega
  rw [Procgen.densityField, if_neg hguard]
  rw [buildRows_getD _ _ _ _ y seed (by omega)]
  rw [buildRow_getD _ _ _ x _ (by omega)]
  rw [stateIter_comp]
  have : x + 1 + y * w.toNat = y * w.toNat + x + 1 := by omega
  rw [this]

/-- Witness for C5 at `width = height = 2`, `density = 1/2`, `seed = 42`,
cell `(y, x) = (1, 0)`. -/
theorem c5_density_cell_threshold_witness :
    (((1 : ℕ) : ℤ) < 2 ∧ ((0 : ℕ) : ℤ) < 2) ∧
    ((Procgen.densityField 2 2 (1/2) false 42).getD 1 []).getD 0 '?' =
      (if stateIter (1 * (2 : ℤ).toNat + 0 + 1) 42 <
          pyTrunc (max 0 (min 1 ((1 : ℚ)/2)) * 4294967295)
       then (if false then '#' else '▓') else ' ') :=
  ⟨⟨by decide, by decide⟩,
    c5_density_cell_threshold 2 2 (1/2) false 42 1 0 (by decide) (by decide)⟩

/-- C5 (counterexample): with `density = 1/2` the code's threshold is
`int(0.5 * 0xFFFFFFFF) = 2147483647`, not `0.5 * 2^32 = 2147483648`.
Seed `3597450471` makes the first step land exactly on state
`2147483647`: the claim's `state < density * 2^32` predicts a filled
cell, but the code leaves it blank. -/
theorem c5_counterexample_threshold :
    Procgen.densityField 1 1 (1/2) false 3597450471 = [[' ']] ∧
    ((stateIter 1 3597450471 : ℚ) < (1/2) * 4294967296) := by
  constructor
  · have hthr : pyTrunc (max 0 (min 1 ((1 : ℚ)/2)) * 4294967295) = 2147483647 := by
      norm_num [pyTrunc, min_def, max_def]
    rw [Procgen.densityField, if_neg (by norm_num)]
    dsimp only
    rw [hthr]
    decide
  · have h1 : stateIter 1 3597450471 = 2147483647 := by decide
    rw [h1]
    norm_num

end AsciiVibe

namespace AsciiVibe

theorem pyCenter_length (s : List Char) (n : ℤ) (hn : 0 ≤ n)
    (hs : (s.length : ℤ) ≤ n) : (pyCenter s n).length = n.toNat := by
  rw [pyCenter]
  split_ifs with h
  · omega
  · push_neg at h
    simp only [List.length_append, List.length_replicate]
    have ht : (n.toNat - s.length) &&& n.toNat &&& 1 ≤ 1 := by
      rw [Nat.and_one_is_mod]
      omega
    omega

theorem clampRow_length (W : ℤ) (row : List Char) (hW : 0 ≤ W) :
    (Pkg.clampRow W row).length = W.toNat := by
  rw [Pkg.clampRow]
  split_ifs with h1 h2
  · rw [pyTake, if_pos hW]
    simp only [List.length_take]
    omega
  · simp only [List.length_append, pyRepeat, List.length_replicate]
    omega
  · omega

theorem fullBlockBarRow_length (W LI B vm : ℤ) (lab : List Char) (val : ℤ)
    (hW : 0 ≤ W) : (Pkg.fullBlockBarRow W LI B vm lab val).length = W.toNat := by
  rw [Pkg.fullBlockBarRow]
  exact clampRow_length W _ hW

/-- C2 (amended): for non-empty equal-length label/value lists, a
feasible layout (`0 ≤ bar_width` and label field `W - (B+8) ≥ 4`), and a
title that fits within the side caps (length at most `total_width - 2`),
every row of the full-block band is exactly `total_width` characters.
The title hypothesis is forced by the counterexample: `str.center` never
truncates, so an over-long title row exceeds `total_width`. -/
theorem c2_full_block_row_widths (title : List Char) (labels : List (List Char))
    (values : List ℤ) (W B : ℤ) (hl : labels ≠ []) (hv : values ≠ [])
    (hlen : labels.length = values.length) (hB : 0 ≤ B)
    (hfeas : 4 ≤ W - (B + 8)) (htitle : (title.length : ℤ) ≤ W - 2) :
    ∃ rows, Pkg.renderSwissFullBlockBar title labels values W B = Except.ok rows ∧
      ∀ r ∈ rows, r.length = W.toNat := by
  have hguard : ¬(labels = [] ∨ values = [] ∨ labels.length ≠ values.length) := by
    push_neg
    exact ⟨hl, hv, hlen⟩
  rw [Pkg.renderSwissFullBlockBar, if_neg hguard,
    if_neg (by omega : ¬(W - (B + 8) < 4))]
  refine ⟨_, rfl, ?_⟩
  intro r hr
  simp only [List.mem_cons, List.mem_append, List.mem_map, List.mem_singleton] at hr
  rcases hr with (h1 | h1 | ⟨p, hp, h1⟩) | (h1 | h1)
  · subst h1
    simp [pyRepeat]
  · subst h1
    have h2 : (pyCenter (List.map Char.toUpper title) (W - 2)).length =
        (W - 2).toNat :=
      pyCenter_length _ _ (by omega) (by simpa using htitle)
    simp only [List.length_cons, List.length_append, h2, List.length_nil]
    omega
  · subst h1
    exact fullBlockBarRow_length _ _ _ _ _ _ (by omega)
  · subst h1
    simp [pyRepeat]
  · exact absurd h1 (List.not_mem_nil r)

/-- Witness for C2 at `title = "T"`, one label/value, `total_width = 50`,
`bar_width = 35`. -/
theorem c2_full_block_row_widths_witness :
    (([['A']] : List (List Char)) ≠ [] ∧ (([1] : List ℤ)) ≠ [] ∧
      ([['A']] : List (List Char)).length = ([1] : List ℤ).length ∧
      (0 : ℤ) ≤ 35 ∧ (4 : ℤ) ≤ 50 - (35 + 8) ∧
      ((['T'] : List Char).length : ℤ) ≤ 50 - 2) ∧
    ∃ rows, Pkg.renderSwissFullBlockBar ['T'] [['A']] [1] 50 35 =
        Except.ok rows ∧ ∀ r ∈ rows, r.length = (50 : ℤ).toNat :=
  ⟨⟨by decide, by decide, by decide, by decide, by decide, by decide⟩,
    c2_full_block_row_widths ['T'] [['A']] [1] 50 35 (by decide) (by decide)
      (by decide) (by decide) (by decide) (by decide)⟩

/-- C2 (counterexample): with a 60-character title, one label, value `1`,
`total_width = 50` and `bar_width = 35` — non-empty equal-length lists
and a feasible width — the title row of the full-block band is 62
characters while every other row is 50: `str.center` does not truncate,
so not every non-blank row has the declared `total_width`. -/
theorem c2_counterexample_title_row_width :
    (Pkg.renderSwissFullBlockBar (List.replicate 60 'X') [['A']] [1] 50 35).map
      (List.map List.length) = Except.ok [50, 62, 50, 50] ∧ (62 : ℕ) ≠ 50 := by
  refine ⟨?_, by decide⟩
  have hn : pythonRound (((1 : ℤ) : ℚ) / ((1 : ℤ) : ℚ) * ((35 : ℤ) : ℚ)) = 35 := by
    norm_num [pythonRound]
  have hn35 : pythonRound (35 : ℚ) = 35 := by norm_num [pythonRound]
  rw [Pkg.renderSwissFullBlockBar]
  rw [if_neg (by decide), if_neg (by decide)]
  dsimp only
  simp only [listMaxZ]
  norm_num [Pkg.fullBlockBarRow, hn, hn35]
  simp only [Except.map, Except.ok.injEq]
  decide

end AsciiVibe

namespace AsciiVibe.Numbers

theorem buildGroups_congr_mod (sep : Char) :
    ∀ (r : List Char) (i j : ℕ), 0 < i → 0 < j → i % 3 = j % 3 →
      buildGroups sep r i = buildGroups sep r j := by
  intro r
  induction r with
  | nil => intro i j _ _ _; rfl
  | cons d ds ih =>
    intro i j hi hj hm
    by_cases h : i % 3 = 0
    · have hj3 : j % 3 = 0 := by omega
      simp only [buildGroups, ih (i + 1) (j + 1) (by omega) (by omega) (by omega)]
      rw [if_pos ⟨hi, h⟩, if_pos ⟨hj, hj3⟩]
    · have hj3 : ¬(j % 3 = 0) := by omega
      simp only [buildGroups]
      rw [if_neg (by tauto), if_neg (by tauto)]
      rw [ih (i + 1) (j + 1) (by omega) (by omega) (by omega)]

theorem buildGroups_eq_groupRev (sep : Char) :
    ∀ r : List Char, buildGroups sep r 0 = groupRev sep r
  | [] => rfl
  | [a] => rfl
  | [a, b] => rfl
  | [a, b, c] => rfl
  | a :: b :: c :: d :: rs => by
    have h4 : buildGroups sep rs 4 = buildGroups sep rs 1 :=
      buildGroups_congr_mod sep rs 4 1 (by omega) (by omega) (by omega)
    have hrec := buildGroups_eq_groupRev sep (d :: rs)
    simp only [buildGroups, groupRev] at hrec ⊢
    simp only [h4]
    rw [← hrec]
    simp [buildGroups]

theorem mem_groupRev (sep : Char) :
    ∀ (r : List Char) (c : Char), c ∈ groupRev sep r → c ∈ r ∨ c = sep
  | [], c, h => Or.inl h
  | [a], c, h => Or.inl h
  | [a, b], c, h => Or.inl h
  | [a, b, cc], c, h => Or.inl h
  | a :: b :: cc :: d :: rs, c, h => by
    simp only [groupRev, List.mem_cons] at h
    rcases h with rfl | rfl | rfl | rfl | h
    · exact Or.inl (by simp)
    · exact Or.inl (by simp)
    · exact Or.inl (by simp)
    · exact Or.inr rfl
    · rcases mem_groupRev sep (d :: rs) c h with h2 | h2
      · exact Or.inl (by simp [List.mem_cons] at h2 ⊢; tauto)
      · exact Or.inr h2

theorem mem_insertThousands (sep : Char) (s : List Char) (c : Char)
    (h : c ∈ insertThousands sep s) : c ∈ s ∨ c = sep := by
  rw [insertThousands, buildGroups_eq_groupRev] at h
  rw [List.mem_reverse] at h
  rcases mem_groupRev sep s.reverse c h with h2 | h2
  · exact Or.inl (List.mem_reverse.mp h2)
  · exact Or.inr h2

theorem digitChar_isDigit (d : ℕ) (hd : d < 10) :
    (AsciiVibe.digitChar d).isDigit := by
  interval_cases d <;> decide

theorem natDigitsAux_digits :
    ∀ (fuel n : ℕ), ∀ c ∈ AsciiVibe.natDigitsAux fuel n, c.isDigit := by
  intro fuel
  induction fuel with
  | zero => intro n c hc; simp [AsciiVibe.natDigitsAux] at hc
  | succ fuel ih =>
    intro n c hc
    rw [AsciiVibe.natDigitsAux] at hc
    split_ifs at hc with h
    · simp at hc
      subst hc
      exact digitChar_isDigit n h
    · rcases List.mem_append.mp hc with hc | hc
      · exact ih (n / 10) c hc
      · simp at hc
        subst hc
        exact digitChar_isDigit (n % 10) (by omega)

theorem natDigits_digits (n : ℕ) : ∀ c ∈ AsciiVibe.natDigits n, c.isDigit :=
  natDigitsAux_digits (n + 1) n

theorem pad2_spec : ∀ n, n < 100 → (pad2 n).length = 2 ∧ ∀ c ∈ pad2 n, c.isDigit := by
  decide

theorem symbolOf_not_dash (cur : List Char) (c : Char) (hc : c ∈ symbolOf cur) :
    c ≠ '-' := by
  rw [symbolOf] at hc
  split_ifs at hc <;> simp at hc <;>
    first
      | (subst hc; decide)
      | (rcases hc with rfl | rfl <;> decide)

theorem intPartChars (sep : Char) (n : ℕ) :
    ∀ c ∈ (if (AsciiVibe.natDigits n).length > 3
        then insertThousands sep (AsciiVibe.natDigits n)
        else AsciiVibe.natDigits n), c.isDigit ∨ c = sep := by
  intro c hc
  split_ifs at hc with h
  · rcases mem_insertThousands _ _ c hc with h2 | h2
    · exact Or.inl (natDigits_digits _ c h2)
    · exact Or.inr h2
  · exact Or.inl (natDigits_digits _ c hc)

end AsciiVibe.Numbers

namespace AsciiVibe

/-- C6: `format_currency` renders the absolute value with exactly two
fractional digits, groups the integer digits in threes from the right
(separated by an ASCII space when `ascii_only`, a thin space otherwise —
stated via the refinement `insertThousands = groupRev ∘ reverse`),
prefixes the symbol from the closed table with `"$"` fallback for unknown
codes, wraps negatives in parentheses with no minus sign anywhere, and in
particular maps `(-456789.12, "USD", ascii_only=true)` to
`"($456 789.12)"`. -/
theorem c6_format_currency_swiss :
    (∀ (sep : Char) (s : List Char),
      Numbers.insertThousands sep s = (Numbers.groupRev sep s.reverse).reverse) ∧
    (∀ (v : ℚ) (cur : List Char) (ao : Bool),
      ∃ ip dp : List Char,
        Numbers.formatCurrency v cur ao =
          (if v < 0 then '(' :: (Numbers.symbolOf cur ++ (ip ++ '.' :: dp) ++ [')'])
           else Numbers.symbolOf cur ++ (ip ++ '.' :: dp)) ∧
        dp.length = 2 ∧ (∀ c ∈ dp, c.isDigit) ∧
        (∀ c ∈ ip, c.isDigit ∨ c = (if ao then ' ' else Numbers.THIN_SPACE)) ∧
        '-' ∉ Numbers.formatCurrency v cur ao) ∧
    (∀ cur : List Char,
      cur ∉ ([['U', 'S', 'D'], ['E', 'U', 'R'], ['G', 'B', 'P'], ['J', 'P', 'Y'],
        ['C', 'H', 'F'], ['C', 'A', 'D'], ['A', 'U', 'D']] : List (List Char)) →
        Numbers.symbolOf cur = ['$']) ∧
    Numbers.formatCurrency (-456789.12) ['U', 'S', 'D'] true =
      ['(', '$', '4', '5', '6', ' ', '7', '8', '9', '.', '1', '2', ')'] := by
  refine ⟨fun sep s => by rw [Numbers.insertThousands,
    Numbers.buildGroups_eq_groupRev], ?_, ?_, ?_⟩
  · intro v cur ao
    have heq : Numbers.formatCurrency v cur ao =
        (if v < 0 then
          '(' :: (Numbers.symbolOf cur ++
            ((if (natDigits (((pythonRound (|v| * 100)).toNat) / 100)).length > 3
              then Numbers.insertThousands (if ao then ' ' else Numbers.THIN_SPACE)
                (natDigits (((pythonRound (|v| * 100)).toNat) / 100))
              else natDigits (((pythonRound (|v| * 100)).toNat) / 100)) ++
              '.' :: Numbers.pad2 (((pythonRound (|v| * 100)).toNat) % 100)) ++ [')'])
         else Numbers.symbolOf cur ++
            ((if (natDigits (((pythonRound (|v| * 100)).toNat) / 100)).length > 3
              then Numbers.insertThousands (if ao then ' ' else Numbers.THIN_SPACE)
                (natDigits (((pythonRound (|v| * 100)).toNat) / 100))
              else natDigits (((pythonRound (|v| * 100)).toNat) / 100)) ++
              '.' :: Numbers.pad2 (((pythonRound (|v| * 100)).toNat) % 100))) := by
      rw [Numbers.formatCurrency]
      split_ifs <;> simp [List.append_assoc]
    have hsep : (if ao then ' ' else Numbers.THIN_SPACE) ≠ '-' := by
      cases ao <;> decide
    have hdig : ∀ c : Char, c.isDigit → c ≠ '-' := by
      intro c h he
      subst he
      exact absurd h (by decide)
    refine ⟨_, _, heq, (Numbers.pad2_spec _ (by omega)).1,
      fun c hc => (Numbers.pad2_spec _ (by omega)).2 c hc,
      Numbers.intPartChars _ _, ?_⟩
    rw [heq]
    have hipdp : ∀ c ∈ (if (natDigits (((pythonRound (|v| * 100)).toNat) / 100)).length > 3
            then Numbers.insertThousands (if ao then ' ' else Numbers.THIN_SPACE)
              (natDigits (((pythonRound (|v| * 100)).toNat) / 100))
            else natDigits (((pythonRound (|v| * 100)).toNat) / 100)) ++
            '.' :: Numbers.pad2 (((pythonRound (|v| * 100)).toNat) % 100), c ≠ '-' := by
      intro c hc
      rcases List.mem_append.mp hc with hc | hc
      · rcases Numbers.intPartChars _ _ c hc with h2 | h2
        · exact hdig c h2
        · rw [h2]
          exact hsep
      · rcases List.mem_cons.mp hc with rfl | hc
        · decide
        · exact hdig c ((Numbers.pad2_spec _ (by omega)).2 c hc)
    by_cases hv : v < 0
    · rw [if_pos hv]
      intro hm
      rcases List.mem_cons.mp hm with h0 | hm2
      · exact absurd h0.symm (by decide)
      · rcases List.mem_append.mp hm2 with hm3 | hm3
        · rcases List.mem_append.mp hm3 with hm4 | hm4
          · exact Numbers.symbolOf_not_dash cur _ hm4 rfl
          · exact hipdp _ hm4 rfl
        · simp at hm3
    · rw [if_neg hv]
      intro hm
      rcases List.mem_append.mp hm with hm3 | hm3
      · exact Numbers.symbolOf_not_dash cur _ hm3 rfl
      · exact hipdp _ hm3 rfl
  · intro cur hcur
    rw [Numbers.symbolOf]
    split_ifs with h1 h2 h3 h4 h5 h6 h7
    · exact absurd (by simp [h1]) hcur
    · exact absurd (by simp [h2]) hcur
    · exact absurd (by simp [h3]) hcur
    · exact absurd (by simp [h4]) hcur
    · exact absurd (by simp [h5]) hcur
    · exact absurd (by simp [h6]) hcur
    · exact absurd (by simp [h7]) hcur
    · rfl
  · have hcents : pythonRound (|(-456789.12 : ℚ)| * 100) = 45678912 := by
      have habs : |(-456789.12 : ℚ)| = 456789.12 := by
        rw [abs_of_neg (by norm_num)]
        norm_num
      rw [habs, pythonRound, if_pos (by norm_num)]
      norm_num
    have hneg : (-456789.12 : ℚ) < 0 := by norm_num
    rw [Numbers.formatCurrency, hcents, if_pos hneg]
    decide

/-- Witness for C6's fallback hypothesis at the unknown code `"XYZ"`. -/
theorem c6_format_currency_swiss_witness :
    (['X', 'Y', 'Z'] : List Char) ∉
      ([['U', 'S', 'D'], ['E', 'U', 'R'], ['G', 'B', 'P'], ['J', 'P', 'Y'],
        ['C', 'H', 'F'], ['C', 'A', 'D'], ['A', 'U', 'D']] : List (List Char)) ∧
    Numbers.symbolOf ['X', 'Y', 'Z'] = ['$'] :=
  ⟨by decide, c6_format_currency_swiss.2.2.1 ['X', 'Y', 'Z'] (by decide)⟩

end AsciiVibe
